import Mathlib

/-!
# DSMock: the mock `DS` service of js-data-angular-mocks

A shallow embedding of `src/DSMock.js`.  The provider function `DSProvider` closes over
the arrays `expectations`, `definitions` and `responses`; the service object `DS` built by
`$get` mutates them through `expect`, `when`, `flush` and
`verifyNoOutstandingExpectation`.  Here the closure state is an explicit record
(`DSState`) that every operation receives and returns, and a thrown `Error` is returned
as its message together with the state at the moment of the throw.
-/

set_option autoImplicit false

namespace DSMock

/-! ## Values -/

/-- JavaScript values, as far as the service inspects them.  Numbers are the integers
(no floating point is modelled). -/
inductive JSValue where
  | undefined
  | null
  | bool (b : Bool)
  | num (n : Int)
  | str (s : String)
  | arr (items : List JSValue)
  | obj (fields : List (String × JSValue))

/-- The test `v === undefined`. -/
def JSValue.isUndefined : JSValue → Bool
  | .undefined => true
  | _ => false

/-- Array indexing `xs[i]`: reading past the end of an array yields `undefined`. -/
def index (xs : List JSValue) (i : Nat) : JSValue :=
  (xs.get? i).getD JSValue.undefined

/-! ## Closure state -/

/-- Modelled from the spec: the record built by `new MockDSExpectation(name, args)`.
The constructor belongs to `DSMockUtils`, which is not among the sources; the spec's
CallRecord has an operation name, the expected arguments and a response that is unset
until `respond` is called.  `ref` is the identity of the JavaScript object (the builder
returned by `expect` and `when` keeps a reference to the record it queued). -/
structure MockDSExpectation where
  ref : Nat
  name : JSValue
  args : List JSValue
  response : Option (List JSValue)

/-- Effects of the service that fall outside its three arrays: a response thunk was
called (`responses.shift()()`), or the host synchronization hook `$rootScope.$digest()`
was triggered. -/
inductive Event (τ : Type) where
  | invoked (thunk : τ)
  | digest

/-- The variables `DSProvider` closes over.  `τ` is the type of the response thunks: they
are built by `DSMockUtils.mockAsync` (not among the sources) and the service only ever
shifts them off `responses` and calls them.  `log` is the history of `Event`s, oldest
first; `nextRef` is the identity the next allocated record receives.  The fourth array,
`requests`, is only handed to `DSMockUtils.mockAsync`; no method of the service reads or
writes it, so it has no field here. -/
structure DSState (τ : Type) where
  expectations : List MockDSExpectation
  definitions : List MockDSExpectation
  responses : List τ
  log : List (Event τ)
  nextRef : Nat

/-- The state right after `DSProvider` ran: `var expectations = []`, `var definitions = []`,
`var responses = []`. -/
def DSState.fresh (τ : Type) : DSState τ :=
  { expectations := [], definitions := [], responses := [], log := [], nextRef := 0 }

/-- What a call leaves behind: the closure state, and either the returned value or the
message of the `Error` it threw. -/
structure Outcome (σ α : Type) where
  state : σ
  result : Except String α

/-- The object `{ respond: function () {...} }` returned by `expect` and `when`; its closure
holds the record that the call queued. -/
structure Responder where
  ref : Nat

/-- The thunks called so far, oldest first. -/
def invokedThunks {τ : Type} : List (Event τ) → List τ
  | [] => []
  | Event.invoked t :: es => t :: invokedThunks es
  | Event.digest :: es => invokedThunks es

/-- The number of times the synchronization hook was triggered. -/
def digestCount {τ : Type} : List (Event τ) → Nat
  | [] => 0
  | Event.invoked _ :: es => digestCount es
  | Event.digest :: es => digestCount es + 1

/-! ## The service -/

namespace DS

variable {τ : Type}

/-- Modelled from the spec: `$rootScope.$digest()`, the host synchronization hook.  The
spec treats it as an opaque `notifyObservers()` hook outside the three queues, so
triggering it is recorded in the log and changes nothing else. -/
def digest (s : DSState τ) : DSState τ :=
  { s with log := s.log ++ [Event.digest] }

/-- Modelled from the spec: `responses.shift()()` on a non-empty `responses`, whose head
is `t` and whose tail is `rest`.  A response thunk is a zero-argument deferred action
that settles the pending completion of its invocation; calling it is recorded in the log
and leaves the three queues alone. -/
def shiftAndCall (t : τ) (rest : List τ) (s : DSState τ) : DSState τ :=
  { s with responses := rest, log := s.log ++ [Event.invoked t] }

/-- `DS.expect`:
    var args = Array.prototype.slice.call(arguments, 1);
    if (args[0] === undefined) throw new Error('Resource not defined for expectation!');
    var expectation = new MockDSExpectation(name, args);
    expectations.push(expectation);
    return (the responder);
The parameter `arguments` is the whole argument list of the call, so that `name` is
`arguments[0]`. -/
def expect (arguments : List JSValue) (s : DSState τ) : Outcome (DSState τ) Responder :=
  let name := index arguments 0
  let args := arguments.drop 1
  if (index args 0).isUndefined then
    { state := s, result := Except.error "Resource not defined for expectation!" }
  else
    let expectation : MockDSExpectation :=
      { ref := s.nextRef, name := name, args := args, response := none }
    { state := { s with expectations := s.expectations ++ [expectation],
                        nextRef := s.nextRef + 1 },
      result := Except.ok { ref := expectation.ref } }

/-- `DS.when`: as `DS.expect`, with the message 'Resource not defined for definition' and
`definitions.push(definition)`. -/
def when (arguments : List JSValue) (s : DSState τ) : Outcome (DSState τ) Responder :=
  let name := index arguments 0
  let args := arguments.drop 1
  if (index args 0).isUndefined then
    { state := s, result := Except.error "Resource not defined for definition" }
  else
    let definition : MockDSExpectation :=
      { ref := s.nextRef, name := name, args := args, response := none }
    { state := { s with definitions := s.definitions ++ [definition],
                        nextRef := s.nextRef + 1 },
      result := Except.ok { ref := definition.ref } }

/-- The loop of `DS.flush` for a defined count:
    while (count--) {
      if (!responses.length) throw new Error('No more pending DS requests to flush !');
      responses.shift()();
    }
The recursion is on `responses`; `count--` is tested against zero before each round and
the next round sees `count - 1`. -/
def flushCount : List τ → Int → DSState τ → Outcome (DSState τ) Unit
  | [], count, s =>
    if count = 0 then { state := s, result := Except.ok () }
    else { state := s, result := Except.error "No more pending DS requests to flush !" }
  | t :: rest, count, s =>
    if count = 0 then { state := s, result := Except.ok () }
    else flushCount rest (count - 1) (shiftAndCall t rest s)

/-- The loop of `DS.flush` without a count:
    while (responses.length) { responses.shift()(); } -/
def flushAll : List τ → DSState τ → DSState τ
  | [], s => s
  | t :: rest, s => flushAll rest (shiftAndCall t rest s)

/-- `DS.flush`; `count` is `none` when the argument is `undefined` (or not passed) and
`some c` for an integer count `c`:
    if (!responses.length) throw new Error('No pending DS requests to flush !');
    if (angular.isDefined(count)) { (the counted loop) } else { (the draining loop) }
    $rootScope.$digest(); -/
def flush (count : Option Int) (s : DSState τ) : Outcome (DSState τ) Unit :=
  if s.responses.length = 0 then
    { state := s, result := Except.error "No pending DS requests to flush !" }
  else
    match count with
    | some c =>
      let looped := flushCount s.responses c s
      match looped.result with
      | Except.ok _ => { state := digest looped.state, result := Except.ok () }
      | Except.error e => { state := looped.state, result := Except.error e }
    | none => { state := digest (flushAll s.responses s), result := Except.ok () }

/-- `Array.prototype.join` on `expectations`; `toStr` is the string conversion of a
record (its `toString` belongs to `DSMockUtils`, which is not among the sources). -/
def join (toStr : MockDSExpectation → String) (sep : String)
    (xs : List MockDSExpectation) : String :=
  sep.intercalate (xs.map toStr)

/-- `DS.verifyNoOutstandingExpectation`:
    $rootScope.$digest();
    if (expectations.length) {
      throw new Error('Unsatisfied requests: ' + expectations.join(', '));
    } -/
def verifyNoOutstandingExpectation (toStr : MockDSExpectation → String) (s : DSState τ) :
    Outcome (DSState τ) Unit :=
  let s1 := digest s
  if s1.expectations.length ≠ 0 then
    { state := s1,
      result := Except.error ("Unsatisfied requests: " ++ join toStr ", " s1.expectations) }
  else
    { state := s1, result := Except.ok () }

end DS

/-! ## The responder, and sequences of declarations -/

namespace DS

variable {τ : Type}

/-- The assignment `expectation.response = values` on the record whose identity is `ref`;
a record with another identity is left as it is. -/
def setResponse (ref : Nat) (values : List JSValue) (e : MockDSExpectation) :
    MockDSExpectation :=
  if e.ref = ref then { e with response := some values } else e

/-- The `respond` function of the object returned by `expect` and by `when`:
    expectation.response = Array.prototype.slice.call(arguments);
`values` is the argument list of the call.  The closure holds one record object; the
assignment reaches it wherever it is queued.  The function returns nothing and does not
throw. -/
def respond (r : Responder) (values : List JSValue) (s : DSState τ) : DSState τ :=
  { s with expectations := s.expectations.map (setResponse r.ref values),
           definitions := s.definitions.map (setResponse r.ref values) }

/-- The identities of the queued records, expectations first. -/
def refs (s : DSState τ) : List Nat :=
  (s.expectations ++ s.definitions).map MockDSExpectation.ref

/-- Every queued record is an object of its own, allocated before the next one: the
identities are pairwise distinct and below `nextRef`. -/
def WellFormed (s : DSState τ) : Prop :=
  (refs s).Nodup ∧ ∀ n ∈ refs s, n < s.nextRef

/-- A test body made of `DS.expect(...)` calls, one argument list per call; a call that
throws leaves the state as it was and the next call follows. -/
def expectMany (calls : List (List JSValue)) (s : DSState τ) : DSState τ :=
  calls.foldl (fun st arguments => (expect arguments st).state) s

/-- One declaration `DS.when(...)`, alone or followed by `.respond(...)`. -/
inductive WhenDeclaration where
  | bare (arguments : List JSValue)
  | responding (arguments : List JSValue) (values : List JSValue)

/-- Runs one `when` declaration: `DS.when(...arguments)` or
`DS.when(...arguments).respond(...values)`; when `when` throws there is no responder to
call. -/
def runWhen (d : WhenDeclaration) (s : DSState τ) : DSState τ :=
  match d with
  | WhenDeclaration.bare arguments => (when arguments s).state
  | WhenDeclaration.responding arguments values =>
    match (when arguments s).result with
    | Except.ok r => respond r values (when arguments s).state
    | Except.error _ => (when arguments s).state

/-- A test body made of `when` declarations, run in order. -/
def whenMany (ds : List WhenDeclaration) (s : DSState τ) : DSState τ :=
  ds.foldl (fun st d => runWhen d st) s

/-- The counted loop of `DS.flush`, statement by statement, with one unit of `fuel` per
evaluation of the loop condition; `none` means the fuel ran out before the loop ended:
    while (count--) {
      if (!responses.length) throw new Error('No more pending DS requests to flush !');
      responses.shift()();
    } -/
def flushWhile : Nat → Int → DSState τ → Option (Outcome (DSState τ) Unit)
  | 0, _, _ => none
  | fuel + 1, count, s =>
    if count = 0 then some { state := s, result := Except.ok () }
    else
      match s.responses with
      | [] =>
        some { state := s, result := Except.error "No more pending DS requests to flush !" }
      | t :: rest => flushWhile fuel (count - 1) (shiftAndCall t rest s)

end DS

/-! ## The service object -/

/-- The array `var asyncMethods = [...]`. -/
def asyncMethods : List String :=
  ["create", "destroy", "destroyAll", "find", "findAll", "loadRelations", "refresh", "save",
   "update", "updateAll"]

/-- The array `var syncMethods = [...]`. -/
def syncMethods : List String :=
  ["bindAll", "bindOne", "changes", "defineResource", "createInstance", "digest", "eject",
   "ejectAll", "filter", "get", "hasChanges", "inject", "lastModified", "lastSaved",
   "previous"]

/-- The values stored in the service object and in `stubs`.  The first seven are the
entries of the object literal; `shortMethod name` is
`DSMockUtils.createShortMethod(name, expectations)`, `asyncStub name` is the spied
`DSMockUtils.mockAsync(name, 'DS', expectations, definitions, requests, responses)` and
`syncStub name` is the `sinon.stub()` stored under `name`. -/
inductive Member where
  | defaults
  | expect
  | flush
  | when
  | verifyNoOutstandingExpectation
  | utils
  | errors
  | shortMethod (name : String)
  | asyncStub (name : String)
  | syncStub (name : String)
  deriving DecidableEq

/-- A JavaScript object with string keys, in insertion order. -/
abbrev JSObject := List (String × Member)

/-- The assignment `obj[key] = value`: an existing key keeps its place and takes the new
value, a new key is added at the end. -/
def setProp : JSObject → String → Member → JSObject
  | [], key, value => [(key, value)]
  | (k, v) :: rest, key, value =>
    if k = key then (k, value) :: rest else (k, v) :: setProp rest key value

/-- The read `obj[key]`; `none` is `undefined`. -/
def getProp : JSObject → String → Option Member
  | [], _ => none
  | (k, v) :: rest, key => if k = key then some v else getProp rest key

/-- The keys of an object, in insertion order. -/
def keys (obj : JSObject) : List String :=
  obj.map Prod.fst

/-- The key expression `'expect' + name[0].toUpperCase() + name.substring(1)`.  The
operation names are non-empty ASCII words, for which `toUpperCase` on one character is
`Char.toUpper`. -/
def shortMethodKey (name : String) : String :=
  "expect" ++ String.mk (match name.data with
    | [] => []
    | c :: cs => c.toUpper :: cs)

/-- The object `stubs` after the two `angular.forEach` loops:
    stubs[name] = DSMockUtils.mockAsync(name, 'DS', ...); sinon.spy(stubs, name);
    stubs[name] = sinon.stub(); -/
def stubs : JSObject :=
  syncMethods.foldl (fun obj name => setProp obj name (Member.syncStub name))
    (asyncMethods.foldl (fun obj name => setProp obj name (Member.asyncStub name)) [])

/-- The object literal `var DS = { defaults: ..., expect: ..., flush: ..., when: ...,
verifyNoOutstandingExpectation: ..., utils: DSUtils, errors: DSErrors }`. -/
def dsLiteral : JSObject :=
  [("defaults", Member.defaults), ("expect", Member.expect), ("flush", Member.flush),
   ("when", Member.when),
   ("verifyNoOutstandingExpectation", Member.verifyNoOutstandingExpectation),
   ("utils", Member.utils), ("errors", Member.errors)]

/-- The service object after
    angular.forEach(asyncMethods, function (name) {
      DS['expect' + name[0].toUpperCase() + name.substring(1)] =
        DSMockUtils.createShortMethod(name, expectations);
    }); -/
def dsWithShortMethods : JSObject :=
  asyncMethods.foldl
    (fun obj name => setProp obj (shortMethodKey name) (Member.shortMethod name)) dsLiteral

/-- The call `angular.extend(dst, src)`: every own property of `src` is assigned to `dst`. -/
def extend (dst src : JSObject) : JSObject :=
  src.foldl (fun obj kv => setProp obj kv.1 kv.2) dst

/-- The object returned by `$get`: `angular.extend(DS, stubs); return DS;`. -/
def dsObject : JSObject :=
  extend dsWithShortMethods stubs

/-! ## The dispatcher -/

/-- Modelled from the spec: the ResponseThunk built by the dispatcher
(`DSMockUtils.mockAsync`, not among the sources).  It captures the invocation and the
response of the matched record; `none` is the unset response, delivered as no value. -/
structure ResponseThunk where
  operationName : String
  actualArguments : List JSValue
  response : Option (List JSValue)

/-- Modelled from the spec: the stub that `DSMockUtils.mockAsync(name, 'DS', expectations,
definitions, requests, responses)` returns (not among the sources), called with
`actual`.  Following section 4.2: the first expectation, from head to tail, that matches
the invocation is removed and used; otherwise a matching definition is used and stays;
otherwise no record is used.  A thunk holding the used record's response (or no value)
is appended to `responses`.  `isMatch e name actual` is the matching of a record against
an invocation (operation name and arguments). -/
def mockAsync (isMatch : MockDSExpectation → String → List JSValue → Bool)
    (name : String) (actual : List JSValue) (s : DSState ResponseThunk) :
    DSState ResponseThunk :=
  match s.expectations.find? (fun e => isMatch e name actual) with
  | some e =>
    { s with expectations := s.expectations.eraseP (fun x => isMatch x name actual),
             responses := s.responses ++
               [{ operationName := name, actualArguments := actual,
                  response := e.response }] }
  | none =>
    match s.definitions.find? (fun d => isMatch d name actual) with
    | some d =>
      { s with responses := s.responses ++
                 [{ operationName := name, actualArguments := actual,
                    response := d.response }] }
    | none =>
      { s with responses := s.responses ++
                 [{ operationName := name, actualArguments := actual, response := none }] }

/-! ## Defaults -/

/-- The conversion `ToBoolean`: `undefined`, `null`, `false`, `0` and the empty string are
falsy, every other value is truthy. -/
def JSValue.truthy : JSValue → Bool
  | JSValue.undefined => false
  | JSValue.null => false
  | JSValue.bool b => b
  | JSValue.num n => decide (n ≠ 0)
  | JSValue.str s => decide (s ≠ "")
  | JSValue.arr _ => true
  | JSValue.obj _ => true

/-- The property read `v.data`.  On `undefined` and `null` it throws a TypeError; an
object yields the value stored under `data` (the first entry with that key) or
`undefined`; the other values have no property of that name. -/
def JSValue.dataField : JSValue → Except String JSValue
  | JSValue.undefined => Except.error "TypeError: cannot read property data of undefined"
  | JSValue.null => Except.error "TypeError: cannot read property data of null"
  | JSValue.obj fields => Except.ok ((fields.lookup "data").getD JSValue.undefined)
  | _ => Except.ok JSValue.undefined

namespace defaults

/-- The function `defaults.deserialize`:
    deserialize: function (resourceName, data) {
      return data.data ? data.data : data;
    } -/
def deserialize (_resourceName : JSValue) (data : JSValue) : Except String JSValue :=
  match data.dataField with
  | Except.error e => Except.error e
  | Except.ok d => if d.truthy then Except.ok d else Except.ok data

end defaults

/-! ## Sample states -/

/-- A service with three pending responses `A`, `B`, `C` (thunks are named by strings),
one unconsumed expectation and one definition. -/
def pending3 : DSState String :=
  { expectations := [{ ref := 0, name := JSValue.str "destroy",
                       args := [JSValue.str "post", JSValue.num 1], response := none }],
    definitions := [{ ref := 1, name := JSValue.str "find",
                      args := [JSValue.str "post", JSValue.num 1],
                      response := some [JSValue.obj [("id", JSValue.num 1)]] }],
    responses := ["A", "B", "C"],
    log := [],
    nextRef := 2 }

/-- A string form for records, used where a concrete `toString` is needed. -/
def sampleToStr (e : MockDSExpectation) : String :=
  match e.name with
  | JSValue.str n => n
  | _ => "?"

/-- A matching of records against invocations that compares the operation name only,
used where a concrete matcher is needed. -/
def sampleMatch (e : MockDSExpectation) (name : String) (_actual : List JSValue) : Bool :=
  sampleToStr e == name

/-- A service with three unconsumed expectations (`destroy`, then `find` twice, answering
`7` and `8`) and one definition for `find` answering `9`; nothing is pending. -/
def priorityState : DSState ResponseThunk :=
  { expectations :=
      [{ ref := 0, name := JSValue.str "destroy",
         args := [JSValue.str "post", JSValue.num 1], response := none },
       { ref := 1, name := JSValue.str "find",
         args := [JSValue.str "post", JSValue.num 1], response := some [JSValue.num 7] },
       { ref := 2, name := JSValue.str "find",
         args := [JSValue.str "post", JSValue.num 1], response := some [JSValue.num 8] }],
    definitions :=
      [{ ref := 3, name := JSValue.str "find",
         args := [JSValue.str "post", JSValue.num 1], response := some [JSValue.num 9] }],
    responses := [],
    log := [],
    nextRef := 4 }

/-! ## Lemmas on the two loops of `flush` -/

namespace DS

variable {τ : Type}

theorem flushAll_eq (rs : List τ) (s : DSState τ) (h : s.responses = rs) :
    flushAll rs s = { s with responses := [], log := s.log ++ rs.map Event.invoked } := by
  induction rs generalizing s with
  | nil => cases s; simp_all [flushAll]
  | cons t rest ih =>
    rw [flushAll, ih (shiftAndCall t rest s) rfl]
    simp [shiftAndCall]

theorem flushCount_within (rs : List τ) (k : Nat) (s : DSState τ) (h : s.responses = rs)
    (hk : k ≤ rs.length) :
    flushCount rs (k : Int) s =
      { state := { s with responses := rs.drop k,
                          log := s.log ++ (rs.take k).map Event.invoked },
        result := Except.ok () } := by
  induction rs generalizing s k with
  | nil =>
    have hk0 : k = 0 := by simpa using hk
    subst hk0
    cases s; simp_all [flushCount]
  | cons t rest ih =>
    cases k with
    | zero => cases s; simp_all [flushCount]
    | succ j =>
      have hj : j ≤ rest.length := by simpa using hk
      have hne : ((j + 1 : Nat) : Int) ≠ 0 := by omega
      have hpred : ((j + 1 : Nat) : Int) - 1 = (j : Int) := by omega
      rw [flushCount, if_neg hne, hpred, ih j (shiftAndCall t rest s) rfl hj]
      simp [shiftAndCall]

theorem flushCount_short (rs : List τ) (c : Int) (s : DSState τ) (h : s.responses = rs)
    (hc : c < 0 ∨ (rs.length : Int) < c) :
    flushCount rs c s =
      { state := { s with responses := [], log := s.log ++ rs.map Event.invoked },
        result := Except.error "No more pending DS requests to flush !" } := by
  induction rs generalizing s c with
  | nil =>
    have hne : c ≠ 0 := by
      rcases hc with hc | hc
      · omega
      · simp at hc; omega
    cases s; simp_all [flushCount]
  | cons t rest ih =>
    have hne : c ≠ 0 := by
      rcases hc with hc | hc
      · omega
      · simp at hc; omega
    have hc1 : c - 1 < 0 ∨ (rest.length : Int) < c - 1 := by
      rcases hc with hc | hc
      · left; omega
      · right; simp at hc; omega
    rw [flushCount, if_neg hne, ih (c - 1) (shiftAndCall t rest s) rfl hc1]
    simp [shiftAndCall]

theorem flush_none_eq (s : DSState τ) (h : s.responses ≠ []) :
    flush none s =
      { state := { s with responses := [],
                          log := s.log ++ (s.responses.map Event.invoked ++ [Event.digest]) },
        result := Except.ok () } := by
  have hlen : s.responses.length ≠ 0 := by
    intro h0
    exact h (List.length_eq_zero.mp h0)
  simp only [flush, if_neg hlen, flushAll_eq s.responses s rfl, digest]
  simp

theorem flush_some_eq (s : DSState τ) (count : Int) (h : s.responses ≠ [])
    (h0 : 0 ≤ count) (hn : count ≤ (s.responses.length : Int)) :
    flush (some count) s =
      { state := { s with responses := s.responses.drop count.toNat,
                          log := s.log ++ ((s.responses.take count.toNat).map Event.invoked
                                            ++ [Event.digest]) },
        result := Except.ok () } := by
  have hlen : s.responses.length ≠ 0 := by
    intro hz
    exact h (List.length_eq_zero.mp hz)
  obtain ⟨k, rfl⟩ := Int.eq_ofNat_of_zero_le h0
  have hk : k ≤ s.responses.length := by exact_mod_cast hn
  simp only [flush, if_neg hlen, flushCount_within s.responses k s rfl hk, digest,
    Int.toNat_ofNat]
  simp

theorem isUndefined_iff (v : JSValue) : v.isUndefined = true ↔ v = JSValue.undefined := by
  cases v <;> simp [JSValue.isUndefined]

theorem isUndefined_eq_false_iff (v : JSValue) :
    v.isUndefined = false ↔ v ≠ JSValue.undefined := by
  cases v <;> simp [JSValue.isUndefined]

theorem invokedThunks_append (xs ys : List (Event τ)) :
    invokedThunks (xs ++ ys) = invokedThunks xs ++ invokedThunks ys := by
  induction xs with
  | nil => rfl
  | cons e es ih => cases e <;> simp [invokedThunks, ih]

theorem invokedThunks_map (ts : List τ) : invokedThunks (ts.map Event.invoked) = ts := by
  induction ts with
  | nil => rfl
  | cons t rest ih => simp [invokedThunks, ih]

theorem digestCount_append (xs ys : List (Event τ)) :
    digestCount (xs ++ ys) = digestCount xs + digestCount ys := by
  induction xs with
  | nil => simp [digestCount]
  | cons e es ih =>
    cases e
    · simp [digestCount, ih]
    · simp [digestCount, ih]; omega

end DS

theorem declaration_fails_iff_no_resource_aux {τ : Type} (arguments : List JSValue)
    (s : DSState τ) :
    ((DS.expect arguments s).result = Except.error "Resource not defined for expectation!"
      ↔ index (arguments.drop 1) 0 = JSValue.undefined) ∧
    ((DS.when arguments s).result = Except.error "Resource not defined for definition"
      ↔ index (arguments.drop 1) 0 = JSValue.undefined) := by
  constructor
  all_goals
    cases hu : (index (arguments.drop 1) 0).isUndefined
    · have hv := (DS.isUndefined_eq_false_iff _).mp hu
      simp only [List.drop_one] at hu hv
      simp [DS.expect, DS.when, hu, hv]
    · have hv := (DS.isUndefined_iff _).mp hu
      simp only [List.drop_one] at hu hv
      simp [DS.expect, DS.when, hv, JSValue.isUndefined]

/-! ## Flushing -/

/-- C1: on a non-empty response queue `[t1,...,tn]`, `flush()` without a count does not
fail, calls `t1,...,tn` once each in that order, leaves the queue empty and triggers the
synchronization hook once, after `tn`: the log grows by exactly
`invoked t1, ..., invoked tn, digest`, and nothing else changes. -/
theorem flush_all_drains {τ : Type} (s : DSState τ) (h : s.responses ≠ []) :
    DS.flush none s =
      { state := { s with responses := [],
                          log := s.log ++ (s.responses.map Event.invoked ++ [Event.digest]) },
        result := Except.ok () } := by
  exact DS.flush_none_eq s h

/-- C1, at the queue `A, B, C`. -/
theorem flush_all_drains_witness :
    pending3.responses ≠ [] ∧
    DS.flush none pending3 =
      { state := { pending3 with
                     responses := [],
                     log := [Event.invoked "A", Event.invoked "B", Event.invoked "C",
                             Event.digest] },
        result := Except.ok () } :=
  ⟨List.cons_ne_nil _ _, flush_all_drains pending3 (List.cons_ne_nil _ _)⟩

/-- C2: on a non-empty response queue `[t1,...,tn]` and for an integer `count` with
`0 ≤ count ≤ n`, `flush(count)` does not fail, calls exactly `t1,...,t_count` in that
order, leaves `[t_(count+1),...,tn]` in the queue in the original order and triggers the
synchronization hook once, after the last call. -/
theorem flush_count_takes {τ : Type} (s : DSState τ) (count : Int) (h : s.responses ≠ [])
    (h0 : 0 ≤ count) (hn : count ≤ (s.responses.length : Int)) :
    DS.flush (some count) s =
      { state := { s with responses := s.responses.drop count.toNat,
                          log := s.log ++ ((s.responses.take count.toNat).map Event.invoked
                                            ++ [Event.digest]) },
        result := Except.ok () } := by
  exact DS.flush_some_eq s count h h0 hn

/-- C2, at the queue `A, B, C` and `count = 2`. -/
theorem flush_count_takes_witness :
    pending3.responses ≠ [] ∧ (0 : Int) ≤ 2 ∧ (2 : Int) ≤ (pending3.responses.length : Int) ∧
    DS.flush (some 2) pending3 =
      { state := { pending3 with
                     responses := ["C"],
                     log := [Event.invoked "A", Event.invoked "B", Event.digest] },
        result := Except.ok () } :=
  ⟨List.cons_ne_nil _ _, by decide, by decide,
   flush_count_takes pending3 2 (List.cons_ne_nil _ _) (by decide) (by decide)⟩

/-- C3: on a queue of `n` pending thunks and for `0 ≤ k < n`, `flush(k)` followed by
`flush()` succeeds both times; `flush(k)` calls the first `k` thunks and leaves the other
`n - k` pending; the two calls together call the same thunks in the same order as one
`flush()` on the original queue, each thunk once, and the queue is empty afterwards. -/
theorem flush_bounded_then_rest {τ : Type} (s : DSState τ) (k : Int) (h0 : 0 ≤ k)
    (hk : k < (s.responses.length : Int)) :
    (DS.flush (some k) s).result = Except.ok () ∧
    (DS.flush none (DS.flush (some k) s).state).result = Except.ok () ∧
    (DS.flush none s).result = Except.ok () ∧
    invokedThunks (DS.flush (some k) s).state.log
      = invokedThunks s.log ++ s.responses.take k.toNat ∧
    (DS.flush (some k) s).state.responses = s.responses.drop k.toNat ∧
    (DS.flush (some k) s).state.responses.length = s.responses.length - k.toNat ∧
    invokedThunks (DS.flush none (DS.flush (some k) s).state).state.log
      = invokedThunks s.log ++ s.responses ∧
    invokedThunks (DS.flush none s).state.log = invokedThunks s.log ++ s.responses ∧
    (DS.flush none (DS.flush (some k) s).state).state.responses = [] ∧
    (DS.flush none s).state.responses = [] ∧
    (DS.flush none (DS.flush (some k) s).state).state.expectations
      = (DS.flush none s).state.expectations ∧
    (DS.flush none (DS.flush (some k) s).state).state.definitions
      = (DS.flush none s).state.definitions := by
  have hne : s.responses ≠ [] := by
    intro he
    rw [he] at hk
    simp at hk
    omega
  have hdrop : s.responses.drop k.toNat ≠ [] := by
    intro he
    have hl := congrArg List.length he
    simp at hl
    omega
  have e1 := DS.flush_some_eq s k hne h0 (le_of_lt hk)
  have e3 := DS.flush_none_eq s hne
  have e2 := DS.flush_none_eq (DS.flush (some k) s).state (by rw [e1]; exact hdrop)
  rw [e2, e3, e1]
  simp [DS.invokedThunks_append, DS.invokedThunks_map, invokedThunks, ← List.map_take,
    ← List.map_drop]

/-- C3, at the spec's instance: three pending responses, `flush(2)` then `flush()`. -/
theorem flush_bounded_then_rest_witness :
    (0 : Int) ≤ 2 ∧ (2 : Int) < (pending3.responses.length : Int) ∧
    (DS.flush (some 2) pending3).result = Except.ok () ∧
    (DS.flush none (DS.flush (some 2) pending3).state).result = Except.ok () ∧
    invokedThunks (DS.flush (some 2) pending3).state.log = ["A", "B"] ∧
    (DS.flush (some 2) pending3).state.responses = ["C"] ∧
    invokedThunks (DS.flush none (DS.flush (some 2) pending3).state).state.log
      = ["A", "B", "C"] ∧
    invokedThunks (DS.flush none pending3).state.log = ["A", "B", "C"] ∧
    (DS.flush none (DS.flush (some 2) pending3).state).state.responses = [] := by
  have w := flush_bounded_then_rest pending3 2 (by decide) (by decide)
  exact ⟨by decide, by decide, w.1, w.2.1, w.2.2.2.1, w.2.2.2.2.1, w.2.2.2.2.2.2.1,
    w.2.2.2.2.2.2.2.1, w.2.2.2.2.2.2.2.2.1⟩

/-- C4: on an empty response queue `flush` throws 'No pending DS requests to flush !'
for every argument (no count, `0`, any other integer); no thunk is called, the hook is
not triggered and the state is unchanged. -/
theorem flush_empty_fails {τ : Type} (s : DSState τ) (count : Option Int)
    (h : s.responses = []) :
    DS.flush count s =
      { state := s, result := Except.error "No pending DS requests to flush !" } := by
  simp [DS.flush, h]

/-- C4, on a fresh service, without a count, with `0` and with `5`. -/
theorem flush_empty_fails_witness :
    (DSState.fresh String).responses = [] ∧
    DS.flush none (DSState.fresh String) =
      { state := DSState.fresh String,
        result := Except.error "No pending DS requests to flush !" } ∧
    DS.flush (some 0) (DSState.fresh String) =
      { state := DSState.fresh String,
        result := Except.error "No pending DS requests to flush !" } ∧
    DS.flush (some 5) (DSState.fresh String) =
      { state := DSState.fresh String,
        result := Except.error "No pending DS requests to flush !" } :=
  ⟨rfl, flush_empty_fails _ none rfl, flush_empty_fails _ (some 0) rfl,
   flush_empty_fails _ (some 5) rfl⟩

/-- C5: on a non-empty response queue `[t1,...,tn]` and for an integer `count > n`,
`flush(count)` throws 'No more pending DS requests to flush !' after calling all of
`t1,...,tn` in order; the queue is empty at the throw (nothing is rolled back) and the
synchronization hook has not been triggered. -/
theorem flush_count_shortfall {τ : Type} (s : DSState τ) (count : Int)
    (h : s.responses ≠ []) (hn : (s.responses.length : Int) < count) :
    DS.flush (some count) s =
      { state := { s with responses := [],
                          log := s.log ++ s.responses.map Event.invoked },
        result := Except.error "No more pending DS requests to flush !" } := by
  have hlen : s.responses.length ≠ 0 := by
    intro hz
    exact h (List.length_eq_zero.mp hz)
  simp only [DS.flush, if_neg hlen,
    DS.flushCount_short s.responses count s rfl (Or.inr hn)]

/-- C5, at the queue `A, B, C` and `count = 4`. -/
theorem flush_count_shortfall_witness :
    pending3.responses ≠ [] ∧ (pending3.responses.length : Int) < 4 ∧
    DS.flush (some 4) pending3 =
      { state := { pending3 with
                     responses := [],
                     log := [Event.invoked "A", Event.invoked "B", Event.invoked "C"] },
        result := Except.error "No more pending DS requests to flush !" } :=
  ⟨List.cons_ne_nil _ _, by decide,
   flush_count_shortfall pending3 4 (List.cons_ne_nil _ _) (by decide)⟩

/-! ## Verification -/

/-- C6: `verifyNoOutstandingExpectation()` triggers the synchronization hook first (the
hook is in the log whether the call passes or throws) and then throws
'Unsatisfied requests: ...' if and only if `expectations` is non-empty; it passes exactly
when `expectations` is empty, whatever `definitions` and `responses` hold. -/
theorem verify_fails_iff_outstanding {τ : Type} (toStr : MockDSExpectation → String)
    (s : DSState τ) :
    (DS.verifyNoOutstandingExpectation toStr s).state.log = s.log ++ [Event.digest] ∧
    ((DS.verifyNoOutstandingExpectation toStr s).result
        = Except.error ("Unsatisfied requests: " ++ DS.join toStr ", " s.expectations)
      ↔ s.expectations ≠ []) ∧
    ((∃ msg, (DS.verifyNoOutstandingExpectation toStr s).result = Except.error msg)
      ↔ s.expectations ≠ []) ∧
    ((DS.verifyNoOutstandingExpectation toStr s).result = Except.ok ()
      ↔ s.expectations = []) ∧
    (∀ (defs : List MockDSExpectation) (resps : List τ),
      (DS.verifyNoOutstandingExpectation toStr
          { s with definitions := defs, responses := resps }).result
        = (DS.verifyNoOutstandingExpectation toStr s).result) := by
  cases hq : s.expectations with
  | nil => simp [DS.verifyNoOutstandingExpectation, DS.digest, hq]
  | cons e es => simp [DS.verifyNoOutstandingExpectation, DS.digest, hq]

/-- C7: `verifyNoOutstandingExpectation()` leaves `expectations`, `definitions` and
`responses` as they are, whether it passes or throws; its only effect is one more
trigger of the synchronization hook.  Called twice in a row it gives the same outcome
(pass, or the same error) as called once, with one trigger per call. -/
theorem verify_frame_idempotent {τ : Type} (toStr : MockDSExpectation → String)
    (s : DSState τ) :
    (DS.verifyNoOutstandingExpectation toStr s).state
      = { s with log := s.log ++ [Event.digest] } ∧
    (DS.verifyNoOutstandingExpectation toStr s).state.expectations = s.expectations ∧
    (DS.verifyNoOutstandingExpectation toStr s).state.definitions = s.definitions ∧
    (DS.verifyNoOutstandingExpectation toStr s).state.responses = s.responses ∧
    digestCount (DS.verifyNoOutstandingExpectation toStr s).state.log
      = digestCount s.log + 1 ∧
    invokedThunks (DS.verifyNoOutstandingExpectation toStr s).state.log
      = invokedThunks s.log ∧
    (DS.verifyNoOutstandingExpectation toStr
        (DS.verifyNoOutstandingExpectation toStr s).state).result
      = (DS.verifyNoOutstandingExpectation toStr s).result ∧
    (DS.verifyNoOutstandingExpectation toStr
        (DS.verifyNoOutstandingExpectation toStr s).state).state
      = { s with log := s.log ++ [Event.digest, Event.digest] } := by
  cases hq : s.expectations with
  | nil =>
    simp [DS.verifyNoOutstandingExpectation, DS.digest, hq, DS.digestCount_append,
      DS.invokedThunks_append, digestCount, invokedThunks]
  | cons e es =>
    simp [DS.verifyNoOutstandingExpectation, DS.digest, hq, DS.digestCount_append,
      DS.invokedThunks_append, digestCount, invokedThunks]

/-! ## Declarations -/

/-- C8: `expect(name, ...args)` and `when(name, ...args)` throw if and only if `args[0]`,
the first argument after the operation name, is `undefined` (absent or passed as
`undefined`); with a defined `args[0]` they return a responder.  In particular
`expect('create')` and `when('create')` throw. -/
theorem declaration_fails_iff_no_resource {τ : Type} (arguments : List JSValue)
    (s : DSState τ) :
    ((DS.expect arguments s).result = Except.error "Resource not defined for expectation!"
      ↔ index (arguments.drop 1) 0 = JSValue.undefined) ∧
    ((∃ r, (DS.expect arguments s).result = Except.ok r)
      ↔ index (arguments.drop 1) 0 ≠ JSValue.undefined) ∧
    ((DS.when arguments s).result = Except.error "Resource not defined for definition"
      ↔ index (arguments.drop 1) 0 = JSValue.undefined) ∧
    ((∃ r, (DS.when arguments s).result = Except.ok r)
      ↔ index (arguments.drop 1) 0 ≠ JSValue.undefined) ∧
    (DS.expect [JSValue.str "create"] s).result
      = Except.error "Resource not defined for expectation!" ∧
    (DS.when [JSValue.str "create"] s).result
      = Except.error "Resource not defined for definition" := by
  refine ⟨?_, ?_, ?_, ?_, rfl, rfl⟩
  all_goals
    cases hu : (index (arguments.drop 1) 0).isUndefined
    · have hv := (DS.isUndefined_eq_false_iff _).mp hu
      simp only [List.drop_one] at hu hv
      simp [DS.expect, DS.when, hu, hv]
    · have hv := (DS.isUndefined_iff _).mp hu
      simp only [List.drop_one] at hu hv
      simp [DS.expect, DS.when, hv, JSValue.isUndefined]

/-- C9 fails as stated: `expect(undefined, 'post', 1)` and `when(undefined, 'post', 1)`
have an undefined operation name and succeed, queueing a record whose name is
`undefined`. -/
theorem declaration_undefined_name_accepted :
    index [JSValue.undefined, JSValue.str "post", JSValue.num 1] 0 = JSValue.undefined ∧
    DS.expect [JSValue.undefined, JSValue.str "post", JSValue.num 1] (DSState.fresh String)
      = { state := { DSState.fresh String with
                       expectations := [{ ref := 0, name := JSValue.undefined,
                                          args := [JSValue.str "post", JSValue.num 1],
                                          response := none }],
                       nextRef := 1 },
          result := Except.ok { ref := 0 } } ∧
    DS.when [JSValue.undefined, JSValue.str "post", JSValue.num 1] (DSState.fresh String)
      = { state := { DSState.fresh String with
                       definitions := [{ ref := 0, name := JSValue.undefined,
                                         args := [JSValue.str "post", JSValue.num 1],
                                         response := none }],
                       nextRef := 1 },
          result := Except.ok { ref := 0 } } :=
  ⟨rfl, rfl, rfl⟩

/-- C9, amended: `expect` and `when` do not inspect the operation name.  A call whose
operation name is `undefined` throws if and only if its first expected argument is
`undefined` as well (so the call without any argument throws); with a defined first
expected argument it succeeds and queues a record whose name is `undefined`. -/
theorem declaration_undefined_name {τ : Type} (arguments : List JSValue) (s : DSState τ)
    (hname : index arguments 0 = JSValue.undefined) :
    ((DS.expect arguments s).result = Except.error "Resource not defined for expectation!"
      ↔ index (arguments.drop 1) 0 = JSValue.undefined) ∧
    ((DS.when arguments s).result = Except.error "Resource not defined for definition"
      ↔ index (arguments.drop 1) 0 = JSValue.undefined) ∧
    (index (arguments.drop 1) 0 ≠ JSValue.undefined →
      DS.expect arguments s
        = { state := { s with
                         expectations := s.expectations ++
                           [{ ref := s.nextRef, name := JSValue.undefined,
                              args := arguments.drop 1, response := none }],
                         nextRef := s.nextRef + 1 },
            result := Except.ok { ref := s.nextRef } } ∧
      DS.when arguments s
        = { state := { s with
                         definitions := s.definitions ++
                           [{ ref := s.nextRef, name := JSValue.undefined,
                              args := arguments.drop 1, response := none }],
                         nextRef := s.nextRef + 1 },
            result := Except.ok { ref := s.nextRef } }) ∧
    (arguments = [] →
      (DS.expect arguments s).result
        = Except.error "Resource not defined for expectation!" ∧
      (DS.when arguments s).result = Except.error "Resource not defined for definition") := by
  refine ⟨(declaration_fails_iff_no_resource_aux arguments s).1,
    (declaration_fails_iff_no_resource_aux arguments s).2, ?_, ?_⟩
  · intro hdef
    have hu := (DS.isUndefined_eq_false_iff _).mpr hdef
    simp only [List.drop_one] at hu
    simp [DS.expect, DS.when, hu, hname]
  · intro hnil
    subst hnil
    exact ⟨rfl, rfl⟩

/-- C9 amended, at the call without arguments and at `(undefined, 'post', 1)`. -/
theorem declaration_undefined_name_witness :
    index [] 0 = JSValue.undefined ∧
    (DS.expect [] pending3).result = Except.error "Resource not defined for expectation!" ∧
    (DS.when [] pending3).result = Except.error "Resource not defined for definition" ∧
    index [JSValue.undefined, JSValue.str "post", JSValue.num 1] 0 = JSValue.undefined ∧
    (DS.expect [JSValue.undefined, JSValue.str "post", JSValue.num 1] pending3).result
      = Except.ok { ref := 2 } :=
  ⟨rfl,
   ((declaration_undefined_name [] pending3 rfl).2.2.2 rfl).1,
   ((declaration_undefined_name [] pending3 rfl).2.2.2 rfl).2,
   rfl,
   congrArg Outcome.result
     ((declaration_undefined_name [JSValue.undefined, JSValue.str "post", JSValue.num 1]
        pending3 rfl).2.2.1 (by simp [index])).1⟩

/-- C10: a failing declaration is atomic.  Whenever `expect` or `when` throws, no record
has been created: the whole state (`expectations`, `definitions`, `responses`, the log
and the allocation counter) is what it was before the call. -/
theorem declaration_failure_atomic {τ : Type} (arguments : List JSValue) (s : DSState τ)
    (msg : String) :
    ((DS.expect arguments s).result = Except.error msg → (DS.expect arguments s).state = s) ∧
    ((DS.when arguments s).result = Except.error msg → (DS.when arguments s).state = s) := by
  constructor
  all_goals
    cases hu : (index (arguments.drop 1) 0).isUndefined <;>
      simp only [List.drop_one] at hu <;>
      simp [DS.expect, DS.when, hu]

/-- C10, at `expect('create')` and `when('create')` on a service with pending state. -/
theorem declaration_failure_atomic_witness :
    (DS.expect [JSValue.str "create"] pending3).result
      = Except.error "Resource not defined for expectation!" ∧
    (DS.expect [JSValue.str "create"] pending3).state = pending3 ∧
    (DS.when [JSValue.str "create"] pending3).result
      = Except.error "Resource not defined for definition" ∧
    (DS.when [JSValue.str "create"] pending3).state = pending3 :=
  ⟨rfl,
   (declaration_failure_atomic [JSValue.str "create"] pending3
      "Resource not defined for expectation!").1 rfl,
   rfl,
   (declaration_failure_atomic [JSValue.str "create"] pending3
      "Resource not defined for definition").2 rfl⟩

/-! ## Lemmas on declarations and responders -/

namespace DS

variable {τ : Type}

theorem expect_of_defined (arguments : List JSValue) (s : DSState τ)
    (h : index (arguments.drop 1) 0 ≠ JSValue.undefined) :
    expect arguments s =
      { state := { s with
                     expectations := s.expectations ++
                       [{ ref := s.nextRef, name := index arguments 0,
                          args := arguments.drop 1, response := none }],
                     nextRef := s.nextRef + 1 },
        result := Except.ok { ref := s.nextRef } } := by
  have hu := (isUndefined_eq_false_iff _).mpr h
  simp only [List.drop_one] at hu
  simp [expect, hu]

theorem when_of_defined (arguments : List JSValue) (s : DSState τ)
    (h : index (arguments.drop 1) 0 ≠ JSValue.undefined) :
    when arguments s =
      { state := { s with
                     definitions := s.definitions ++
                       [{ ref := s.nextRef, name := index arguments 0,
                          args := arguments.drop 1, response := none }],
                     nextRef := s.nextRef + 1 },
        result := Except.ok { ref := s.nextRef } } := by
  have hu := (isUndefined_eq_false_iff _).mpr h
  simp only [List.drop_one] at hu
  simp [when, hu]

theorem expect_of_undefined (arguments : List JSValue) (s : DSState τ)
    (h : index (arguments.drop 1) 0 = JSValue.undefined) :
    expect arguments s =
      { state := s, result := Except.error "Resource not defined for expectation!" } := by
  simp only [List.drop_one] at h
  simp [expect, h, JSValue.isUndefined]

theorem when_of_undefined (arguments : List JSValue) (s : DSState τ)
    (h : index (arguments.drop 1) 0 = JSValue.undefined) :
    when arguments s =
      { state := s, result := Except.error "Resource not defined for definition" } := by
  simp only [List.drop_one] at h
  simp [when, h, JSValue.isUndefined]

theorem defined_of_expect_ok (arguments : List JSValue) (s : DSState τ) (r : Responder)
    (h : (expect arguments s).result = Except.ok r) :
    index (arguments.drop 1) 0 ≠ JSValue.undefined ∧ r = { ref := s.nextRef } := by
  by_cases hu : index (arguments.drop 1) 0 = JSValue.undefined
  · rw [expect_of_undefined arguments s hu] at h
    cases h
  · rw [expect_of_defined arguments s hu] at h
    injection h with h1
    exact ⟨hu, h1.symm⟩

theorem defined_of_when_ok (arguments : List JSValue) (s : DSState τ) (r : Responder)
    (h : (when arguments s).result = Except.ok r) :
    index (arguments.drop 1) 0 ≠ JSValue.undefined ∧ r = { ref := s.nextRef } := by
  by_cases hu : index (arguments.drop 1) 0 = JSValue.undefined
  · rw [when_of_undefined arguments s hu] at h
    cases h
  · rw [when_of_defined arguments s hu] at h
    injection h with h1
    exact ⟨hu, h1.symm⟩

theorem expectMany_cons (a : List JSValue) (calls : List (List JSValue)) (s : DSState τ) :
    expectMany (a :: calls) s = expectMany calls (expect a s).state := rfl

theorem expectMany_of_defined (calls : List (List JSValue)) (s : DSState τ)
    (h : ∀ a ∈ calls, index (a.drop 1) 0 ≠ JSValue.undefined) :
    expectMany calls s =
      { s with
          expectations := s.expectations ++
            (calls.enumFrom s.nextRef).map (fun p =>
              { ref := p.1, name := index p.2 0, args := p.2.drop 1, response := none }),
          nextRef := s.nextRef + calls.length } := by
  induction calls generalizing s with
  | nil => simp [expectMany]
  | cons a rest ih =>
    have ha := h a (List.mem_cons_self a rest)
    have hrest : ∀ b ∈ rest, index (b.drop 1) 0 ≠ JSValue.undefined :=
      fun b hb => h b (List.mem_cons_of_mem a hb)
    rw [expectMany_cons, expect_of_defined a s ha, ih _ hrest]
    simp [List.enumFrom_cons, Nat.add_assoc, Nat.add_comm 1]

theorem setResponse_of_ne (ref : Nat) (values : List JSValue) (e : MockDSExpectation)
    (h : e.ref ≠ ref) : setResponse ref values e = e := by
  simp [setResponse, h]

theorem setResponse_of_eq (ref : Nat) (values : List JSValue) (e : MockDSExpectation)
    (h : e.ref = ref) : setResponse ref values e = { e with response := some values } := by
  simp [setResponse, h]

theorem setResponse_ref (ref : Nat) (values : List JSValue) (e : MockDSExpectation) :
    (setResponse ref values e).ref = e.ref := by
  unfold setResponse
  split <;> rfl

theorem setResponse_name (ref : Nat) (values : List JSValue) (e : MockDSExpectation) :
    (setResponse ref values e).name = e.name := by
  unfold setResponse
  split <;> rfl

theorem setResponse_args (ref : Nat) (values : List JSValue) (e : MockDSExpectation) :
    (setResponse ref values e).args = e.args := by
  unfold setResponse
  split <;> rfl

theorem setResponse_twice (ref : Nat) (v w : List JSValue) (e : MockDSExpectation) :
    setResponse ref w (setResponse ref v e) = setResponse ref w e := by
  unfold setResponse
  split <;> simp_all

theorem map_setResponse_of_lt (ref : Nat) (values : List JSValue)
    (l : List MockDSExpectation) (h : ∀ e ∈ l, e.ref < ref) :
    l.map (setResponse ref values) = l := by
  induction l with
  | nil => rfl
  | cons e rest ih =>
    have he : e.ref ≠ ref := Nat.ne_of_lt (h e (List.mem_cons_self e rest))
    rw [List.map_cons, setResponse_of_ne ref values e he,
      ih (fun x hx => h x (List.mem_cons_of_mem e hx))]

theorem map_ref_map_setResponse (ref : Nat) (values : List JSValue)
    (l : List MockDSExpectation) :
    (l.map (setResponse ref values)).map MockDSExpectation.ref
      = l.map MockDSExpectation.ref := by
  induction l with
  | nil => rfl
  | cons e rest ih => simp [setResponse_ref, ih]

theorem lt_of_wellFormed_expectation (s : DSState τ) (h : WellFormed s) :
    ∀ e ∈ s.expectations, e.ref < s.nextRef := by
  intro e he
  apply h.2
  simp only [refs, List.map_append, List.mem_append, List.mem_map]
  exact Or.inl ⟨e, he, rfl⟩

theorem lt_of_wellFormed_definition (s : DSState τ) (h : WellFormed s) :
    ∀ e ∈ s.definitions, e.ref < s.nextRef := by
  intro e he
  apply h.2
  simp only [refs, List.map_append, List.mem_append, List.mem_map]
  exact Or.inr ⟨e, he, rfl⟩

theorem wellFormed_fresh : WellFormed (DSState.fresh τ) := by
  simp [WellFormed, refs, DSState.fresh]

theorem wellFormed_of_perm_cons (s u : DSState τ) (h : WellFormed s)
    (hp : (refs u).Perm (s.nextRef :: refs s)) (hn : u.nextRef = s.nextRef + 1) :
    WellFormed u := by
  obtain ⟨hnd, hlt⟩ := h
  constructor
  · rw [hp.nodup_iff, List.nodup_cons]
    refine ⟨?_, hnd⟩
    intro hmem
    have := hlt _ hmem
    omega
  · intro n hmem
    rw [hp.mem_iff, List.mem_cons] at hmem
    rw [hn]
    rcases hmem with hmem | hmem
    · omega
    · have := hlt _ hmem
      omega

theorem wellFormed_expect (arguments : List JSValue) (s : DSState τ) (h : WellFormed s) :
    WellFormed (expect arguments s).state := by
  by_cases hu : index (arguments.drop 1) 0 = JSValue.undefined
  · rw [expect_of_undefined arguments s hu]
    exact h
  · rw [expect_of_defined arguments s hu]
    refine wellFormed_of_perm_cons s _ h ?_ rfl
    simp only [refs, List.map_append, List.map_cons, List.map_nil, List.append_assoc,
      List.singleton_append]
    exact List.perm_middle

theorem wellFormed_when (arguments : List JSValue) (s : DSState τ) (h : WellFormed s) :
    WellFormed (when arguments s).state := by
  by_cases hu : index (arguments.drop 1) 0 = JSValue.undefined
  · rw [when_of_undefined arguments s hu]
    exact h
  · rw [when_of_defined arguments s hu]
    refine wellFormed_of_perm_cons s _ h ?_ rfl
    simp only [refs, List.map_append, List.map_cons, List.map_nil, ← List.append_assoc]
    exact List.perm_append_singleton _ _

theorem refs_respond (r : Responder) (values : List JSValue) (s : DSState τ) :
    refs (respond r values s) = refs s := by
  simp [refs, respond, map_ref_map_setResponse, Function.comp_def, setResponse_ref]

theorem wellFormed_respond (r : Responder) (values : List JSValue) (s : DSState τ)
    (h : WellFormed s) : WellFormed (respond r values s) := by
  unfold WellFormed
  rw [refs_respond]
  exact h

theorem respond_expect_of_defined (arguments values : List JSValue) (s : DSState τ)
    (hwf : WellFormed s) (h : index (arguments.drop 1) 0 ≠ JSValue.undefined) :
    respond { ref := s.nextRef } values (expect arguments s).state =
      { s with
          expectations := s.expectations ++
            [{ ref := s.nextRef, name := index arguments 0, args := arguments.drop 1,
               response := some values }],
          nextRef := s.nextRef + 1 } := by
  rw [expect_of_defined arguments s h]
  simp only [respond, List.map_append, List.map_cons, List.map_nil,
    map_setResponse_of_lt s.nextRef values _ (lt_of_wellFormed_expectation s hwf),
    map_setResponse_of_lt s.nextRef values _ (lt_of_wellFormed_definition s hwf)]
  simp [setResponse]

theorem respond_when_of_defined (arguments values : List JSValue) (s : DSState τ)
    (hwf : WellFormed s) (h : index (arguments.drop 1) 0 ≠ JSValue.undefined) :
    respond { ref := s.nextRef } values (when arguments s).state =
      { s with
          definitions := s.definitions ++
            [{ ref := s.nextRef, name := index arguments 0, args := arguments.drop 1,
               response := some values }],
          nextRef := s.nextRef + 1 } := by
  rw [when_of_defined arguments s h]
  simp only [respond, List.map_append, List.map_cons, List.map_nil,
    map_setResponse_of_lt s.nextRef values _ (lt_of_wellFormed_expectation s hwf),
    map_setResponse_of_lt s.nextRef values _ (lt_of_wellFormed_definition s hwf)]
  simp [setResponse]

theorem respond_twice (r : Responder) (v w : List JSValue) (s : DSState τ) :
    respond r w (respond r v s) = respond r w s := by
  simp [respond, Function.comp_def, setResponse_twice]

theorem runWhen_expectations (d : WhenDeclaration) (s : DSState τ)
    (h : s.expectations = []) : (runWhen d s).expectations = [] := by
  have hstate : ∀ arguments, (when arguments s).state.expectations = [] := by
    intro arguments
    by_cases hu : index (arguments.drop 1) 0 = JSValue.undefined
    · rw [when_of_undefined arguments s hu]; exact h
    · rw [when_of_defined arguments s hu]; exact h
  cases d with
  | bare arguments => exact hstate arguments
  | responding arguments values =>
    simp only [runWhen]
    split
    · simp [respond, hstate arguments]
    · exact hstate arguments

theorem whenMany_expectations (ds : List WhenDeclaration) (s : DSState τ)
    (h : s.expectations = []) : (whenMany ds s).expectations = [] := by
  induction ds generalizing s with
  | nil => exact h
  | cons d rest ih => exact ih (runWhen d s) (runWhen_expectations d s h)

end DS

/-! ## Declaring expectations and definitions -/

/-- C11: a successful `expect(name, a1, ..., ak)` leaves the old expectation queue
followed by exactly one new record, with that operation name, the expected arguments
`[a1, ..., ak]` and no response; the records already queued keep their content and their
order, and `definitions`, `responses` and the log are unchanged.  Hence `N` successful
`expect` calls on a fresh service leave the `N` records in the order of their
declaration (a call succeeds exactly when its first expected argument is defined). -/
theorem expect_appends_record {τ : Type} (arguments : List JSValue) (s : DSState τ)
    (r : Responder) (hok : (DS.expect arguments s).result = Except.ok r) :
    (DS.expect arguments s).state.expectations
      = s.expectations ++ [{ ref := s.nextRef, name := index arguments 0,
                             args := arguments.drop 1, response := none }] ∧
    (DS.expect arguments s).state.definitions = s.definitions ∧
    (DS.expect arguments s).state.responses = s.responses ∧
    (DS.expect arguments s).state.log = s.log ∧
    (∀ calls : List (List JSValue),
      (∀ a ∈ calls, index (a.drop 1) 0 ≠ JSValue.undefined) →
      (DS.expectMany calls (DSState.fresh τ)).expectations
        = calls.enum.map (fun p =>
            { ref := p.1, name := index p.2 0, args := p.2.drop 1, response := none }) ∧
      (DS.expectMany calls (DSState.fresh τ)).expectations.length = calls.length) := by
  have hdef := (DS.defined_of_expect_ok arguments s r hok).1
  rw [DS.expect_of_defined arguments s hdef]
  refine ⟨rfl, rfl, rfl, rfl, ?_⟩
  intro calls hcalls
  rw [DS.expectMany_of_defined calls _ hcalls]
  simp [DSState.fresh, List.enum]

/-- C11, at `expect('find', 'post', 1)` on a service with one queued expectation, and at
three declarations on a fresh service. -/
theorem expect_appends_record_witness :
    (DS.expect [JSValue.str "find", JSValue.str "post", JSValue.num 1] pending3).result
      = Except.ok { ref := 2 } ∧
    (DS.expect [JSValue.str "find", JSValue.str "post", JSValue.num 1]
        pending3).state.expectations
      = [{ ref := 0, name := JSValue.str "destroy",
           args := [JSValue.str "post", JSValue.num 1], response := none },
         { ref := 2, name := JSValue.str "find",
           args := [JSValue.str "post", JSValue.num 1], response := none }] ∧
    (DS.expectMany [[JSValue.str "find", JSValue.str "post"],
                    [JSValue.str "create", JSValue.str "user"],
                    [JSValue.str "find", JSValue.str "post"]]
        (DSState.fresh String)).expectations
      = [{ ref := 0, name := JSValue.str "find", args := [JSValue.str "post"],
           response := none },
         { ref := 1, name := JSValue.str "create", args := [JSValue.str "user"],
           response := none },
         { ref := 2, name := JSValue.str "find", args := [JSValue.str "post"],
           response := none }] :=
  ⟨rfl,
   (expect_appends_record [JSValue.str "find", JSValue.str "post", JSValue.num 1] pending3
      { ref := 2 } rfl).1,
   ((expect_appends_record [JSValue.str "find", JSValue.str "post", JSValue.num 1] pending3
      { ref := 2 } rfl).2.2.2.2
      [[JSValue.str "find", JSValue.str "post"], [JSValue.str "create", JSValue.str "user"],
       [JSValue.str "find", JSValue.str "post"]]
      (by simp [index])).1⟩

/-- C12: the responder returned by `expect` (and by `when`) acts on the record that call
queued.  On a state whose records are distinct objects, `respond(v1, ..., vm)` right after
the declaration gives the state before the declaration with one record appended whose
response is `[v1, ..., vm]`: no record is created by `respond`, the queues keep their
length and order and every other record keeps its name, arguments and response.  A
second `respond` replaces the response by its own values.  In any state `u`, `respond`
keeps the length of both queues, leaves `responses` and the log alone and changes, at
each position, at most the response of the record it holds. -/
theorem respond_sets_queued_record {τ : Type} (arguments values later : List JSValue)
    (s : DSState τ) (r : Responder) (hwf : DS.WellFormed s) :
    ((DS.expect arguments s).result = Except.ok r →
      DS.respond r values (DS.expect arguments s).state
        = { s with
              expectations := s.expectations ++
                [{ ref := s.nextRef, name := index arguments 0, args := arguments.drop 1,
                   response := some values }],
              nextRef := s.nextRef + 1 } ∧
      DS.respond r later (DS.respond r values (DS.expect arguments s).state)
        = { s with
              expectations := s.expectations ++
                [{ ref := s.nextRef, name := index arguments 0, args := arguments.drop 1,
                   response := some later }],
              nextRef := s.nextRef + 1 }) ∧
    ((DS.when arguments s).result = Except.ok r →
      DS.respond r values (DS.when arguments s).state
        = { s with
              definitions := s.definitions ++
                [{ ref := s.nextRef, name := index arguments 0, args := arguments.drop 1,
                   response := some values }],
              nextRef := s.nextRef + 1 } ∧
      DS.respond r later (DS.respond r values (DS.when arguments s).state)
        = { s with
              definitions := s.definitions ++
                [{ ref := s.nextRef, name := index arguments 0, args := arguments.drop 1,
                   response := some later }],
              nextRef := s.nextRef + 1 }) ∧
    (∀ u : DSState τ,
      (DS.respond r values u).expectations.length = u.expectations.length ∧
      (DS.respond r values u).definitions.length = u.definitions.length ∧
      (DS.respond r values u).responses = u.responses ∧
      (DS.respond r values u).log = u.log ∧
      (∀ (i : Nat) (e : MockDSExpectation), u.expectations[i]? = some e →
        (DS.respond r values u).expectations[i]?
          = some (if e.ref = r.ref then { e with response := some values } else e)) ∧
      (∀ (i : Nat) (e : MockDSExpectation), u.definitions[i]? = some e →
        (DS.respond r values u).definitions[i]?
          = some (if e.ref = r.ref then { e with response := some values } else e))) := by
  refine ⟨?_, ?_, ?_⟩
  · intro hok
    obtain ⟨hdef, rfl⟩ := DS.defined_of_expect_ok arguments s r hok
    rw [DS.respond_twice, DS.respond_expect_of_defined arguments values s hwf hdef,
      DS.respond_expect_of_defined arguments later s hwf hdef]
    exact ⟨rfl, rfl⟩
  · intro hok
    obtain ⟨hdef, rfl⟩ := DS.defined_of_when_ok arguments s r hok
    rw [DS.respond_twice, DS.respond_when_of_defined arguments values s hwf hdef,
      DS.respond_when_of_defined arguments later s hwf hdef]
    exact ⟨rfl, rfl⟩
  · intro u
    refine ⟨by simp [DS.respond], by simp [DS.respond], rfl, rfl, ?_, ?_⟩
    · intro i e he
      simp [DS.respond, he, DS.setResponse]
    · intro i e he
      simp [DS.respond, he, DS.setResponse]

/-- C12, at `expect('find', 'post', 1)` on a service with one expectation and one
definition queued, followed by `respond(7)` and then by `respond()`. -/
theorem respond_sets_queued_record_witness :
    DS.WellFormed pending3 ∧
    (DS.expect [JSValue.str "find", JSValue.str "post", JSValue.num 1] pending3).result
      = Except.ok { ref := 2 } ∧
    DS.respond { ref := 2 } [JSValue.num 7]
        (DS.expect [JSValue.str "find", JSValue.str "post", JSValue.num 1] pending3).state
      = { pending3 with
            expectations :=
              [{ ref := 0, name := JSValue.str "destroy",
                 args := [JSValue.str "post", JSValue.num 1], response := none },
               { ref := 2, name := JSValue.str "find",
                 args := [JSValue.str "post", JSValue.num 1],
                 response := some [JSValue.num 7] }],
            nextRef := 3 } ∧
    DS.respond { ref := 2 } []
        (DS.respond { ref := 2 } [JSValue.num 7]
          (DS.expect [JSValue.str "find", JSValue.str "post", JSValue.num 1]
            pending3).state)
      = { pending3 with
            expectations :=
              [{ ref := 0, name := JSValue.str "destroy",
                 args := [JSValue.str "post", JSValue.num 1], response := none },
               { ref := 2, name := JSValue.str "find",
                 args := [JSValue.str "post", JSValue.num 1], response := some [] }],
            nextRef := 3 } :=
  ⟨by simp [DS.WellFormed, DS.refs, pending3],
   rfl,
   ((respond_sets_queued_record [JSValue.str "find", JSValue.str "post", JSValue.num 1]
      [JSValue.num 7] [] pending3 { ref := 2 }
      (by simp [DS.WellFormed, DS.refs, pending3])).1 rfl).1,
   ((respond_sets_queued_record [JSValue.str "find", JSValue.str "post", JSValue.num 1]
      [JSValue.num 7] [] pending3 { ref := 2 }
      (by simp [DS.WellFormed, DS.refs, pending3])).1 rfl).2⟩

/-- C13: a successful `when(name, ...args)` appends exactly one record to `definitions`
and leaves `expectations`, `responses` and the log unchanged.  Definitions therefore
never have to be consumed: on a fresh service, after any sequence of `when(...)`
declarations, with or without `respond`, the expectation queue is empty and
`verifyNoOutstandingExpectation()` passes. -/
theorem when_appends_definition {τ : Type} (toStr : MockDSExpectation → String)
    (arguments : List JSValue) (s : DSState τ) (r : Responder)
    (hok : (DS.when arguments s).result = Except.ok r) :
    (DS.when arguments s).state.definitions
      = s.definitions ++ [{ ref := s.nextRef, name := index arguments 0,
                            args := arguments.drop 1, response := none }] ∧
    (DS.when arguments s).state.expectations = s.expectations ∧
    (DS.when arguments s).state.responses = s.responses ∧
    (DS.when arguments s).state.log = s.log ∧
    (∀ ds : List DS.WhenDeclaration,
      (DS.whenMany ds (DSState.fresh τ)).expectations = [] ∧
      (DS.verifyNoOutstandingExpectation toStr (DS.whenMany ds (DSState.fresh τ))).result
        = Except.ok ()) := by
  have hdef := (DS.defined_of_when_ok arguments s r hok).1
  rw [DS.when_of_defined arguments s hdef]
  refine ⟨rfl, rfl, rfl, rfl, ?_⟩
  intro ds
  have hq := DS.whenMany_expectations ds (DSState.fresh τ) rfl
  refine ⟨hq, ?_⟩
  simp [DS.verifyNoOutstandingExpectation, DS.digest, hq]

/-- C13, at `when('find', 'post', 1)` on a service with pending state, and at a fresh
service after `when('find', 'post', 1).respond(7)` and `when('findAll', 'post')`. -/
theorem when_appends_definition_witness :
    (DS.when [JSValue.str "find", JSValue.str "post", JSValue.num 1] pending3).result
      = Except.ok { ref := 2 } ∧
    (DS.when [JSValue.str "find", JSValue.str "post", JSValue.num 1]
        pending3).state.definitions
      = pending3.definitions ++
          [{ ref := 2, name := JSValue.str "find",
             args := [JSValue.str "post", JSValue.num 1], response := none }] ∧
    (DS.when [JSValue.str "find", JSValue.str "post", JSValue.num 1]
        pending3).state.expectations = pending3.expectations ∧
    (DS.verifyNoOutstandingExpectation sampleToStr
        (DS.whenMany
          [DS.WhenDeclaration.responding [JSValue.str "find", JSValue.str "post", JSValue.num 1]
             [JSValue.num 7],
           DS.WhenDeclaration.bare [JSValue.str "findAll", JSValue.str "post"]]
          (DSState.fresh String))).result = Except.ok () :=
  ⟨rfl,
   (when_appends_definition sampleToStr
      [JSValue.str "find", JSValue.str "post", JSValue.num 1] pending3 { ref := 2 } rfl).1,
   (when_appends_definition sampleToStr
      [JSValue.str "find", JSValue.str "post", JSValue.num 1] pending3 { ref := 2 } rfl).2.1,
   ((when_appends_definition sampleToStr
      [JSValue.str "find", JSValue.str "post", JSValue.num 1] pending3 { ref := 2 }
      rfl).2.2.2.2 _).2⟩

/-! ## The keys of the service object -/

/-- C14: for each of the ten asynchronous operation names `n` the service object holds,
under the key `'expect'` followed by `n` with its first character upper-cased and the
rest unchanged, the wrapper `createShortMethod(n, expectations)` built for that same name
over the one `expectations` array; the wrapper is there both right after the loop and in
the object that `$get` returns.  The ten keys are pairwise distinct and none of them is
`'expect'`, which still holds the `expect` function. -/
theorem short_methods_exposed :
    asyncMethods = ["create", "destroy", "destroyAll", "find", "findAll", "loadRelations",
                    "refresh", "save", "update", "updateAll"] ∧
    asyncMethods.map shortMethodKey
      = ["expectCreate", "expectDestroy", "expectDestroyAll", "expectFind",
         "expectFindAll", "expectLoadRelations", "expectRefresh", "expectSave",
         "expectUpdate", "expectUpdateAll"] ∧
    (∀ (c : Char) (cs : List Char),
      shortMethodKey (String.mk (c :: cs)) = "expect" ++ String.mk (c.toUpper :: cs)) ∧
    (∀ n ∈ asyncMethods,
      getProp dsWithShortMethods (shortMethodKey n) = some (Member.shortMethod n)) ∧
    (∀ n ∈ asyncMethods, getProp dsObject (shortMethodKey n) = some (Member.shortMethod n)) ∧
    (asyncMethods.map shortMethodKey).Nodup ∧
    "expect" ∉ asyncMethods.map shortMethodKey ∧
    getProp dsObject "expect" = some Member.expect :=
  ⟨rfl, by decide, fun _ _ => rfl, by decide, by decide, by decide, by decide, by decide⟩

/-- C16: when `verifyNoOutstandingExpectation()` fails on the expectation queue
`[e1, ..., en]`, the message is 'Unsatisfied requests: ' followed by the string forms of
`e1, ..., en` in queue order, separated by ', ': each queued expectation contributes its
string form once, at its position, and the message does not depend on `definitions` (nor
on `responses`). -/
theorem verify_message_lists_expectations {τ : Type} (toStr : MockDSExpectation → String)
    (s : DSState τ) (h : s.expectations ≠ []) :
    (DS.verifyNoOutstandingExpectation toStr s).result
      = Except.error ("Unsatisfied requests: " ++ ", ".intercalate (s.expectations.map toStr)) ∧
    (∀ e1, s.expectations = [e1] →
      (DS.verifyNoOutstandingExpectation toStr s).result
        = Except.error ("Unsatisfied requests: " ++ toStr e1)) ∧
    (∀ e1 e2, s.expectations = [e1, e2] →
      (DS.verifyNoOutstandingExpectation toStr s).result
        = Except.error ("Unsatisfied requests: " ++ (toStr e1 ++ ", " ++ toStr e2))) ∧
    (∀ e1 e2 e3, s.expectations = [e1, e2, e3] →
      (DS.verifyNoOutstandingExpectation toStr s).result
        = Except.error
            ("Unsatisfied requests: " ++ (toStr e1 ++ ", " ++ toStr e2 ++ ", " ++ toStr e3))) ∧
    (∀ (defs : List MockDSExpectation) (resps : List τ),
      (DS.verifyNoOutstandingExpectation toStr
          { s with definitions := defs, responses := resps }).result
        = (DS.verifyNoOutstandingExpectation toStr s).result) := by
  have hlen : s.expectations.length ≠ 0 := by
    intro h0
    exact h (List.length_eq_zero.mp h0)
  have hmain : (DS.verifyNoOutstandingExpectation toStr s).result
      = Except.error
          ("Unsatisfied requests: " ++ ", ".intercalate (s.expectations.map toStr)) := by
    simp [DS.verifyNoOutstandingExpectation, DS.digest, DS.join, h]
  refine ⟨hmain, ?_, ?_, ?_, ?_⟩
  · intro e1 he
    rw [hmain, he]
    simp [String.intercalate, String.intercalate.go]
  · intro e1 e2 he
    rw [hmain, he]
    simp [String.intercalate, String.intercalate.go]
  · intro e1 e2 e3 he
    rw [hmain, he]
    simp [String.intercalate, String.intercalate.go]
  · intro defs resps
    simp [DS.verifyNoOutstandingExpectation, DS.digest, hlen]

/-- C16, at a service whose only unconsumed expectation is `destroy`, with one definition
queued. -/
theorem verify_message_lists_expectations_witness :
    pending3.expectations ≠ [] ∧
    (DS.verifyNoOutstandingExpectation sampleToStr pending3).result
      = Except.error "Unsatisfied requests: destroy" :=
  ⟨List.cons_ne_nil _ _,
   ((verify_message_lists_expectations sampleToStr pending3 (List.cons_ne_nil _ _)).2.1
      _ rfl).trans (congrArg Except.error (by decide))⟩

set_option maxRecDepth 4000 in
/-- C17: the 10 asynchronous and the 15 synchronous operation names are 25 pairwise
distinct names; none of them is a key of the object literal (`defaults`, `expect`,
`flush`, `when`, `verifyNoOutstandingExpectation`, `utils`, `errors`) or a generated
`expect<Name>` key.  So `angular.extend(DS, stubs)` overwrites none of those entries:
every key present before the merge reads the same value after it, each operation name
reads its own stub, and the merged object has the earlier keys followed by the 25
names. -/
theorem stubs_keep_service_api :
    asyncMethods.length = 10 ∧ syncMethods.length = 15 ∧
    (asyncMethods ++ syncMethods).length = 25 ∧
    (asyncMethods ++ syncMethods).Nodup ∧
    keys dsLiteral = ["defaults", "expect", "flush", "when",
                      "verifyNoOutstandingExpectation", "utils", "errors"] ∧
    (∀ n ∈ asyncMethods ++ syncMethods,
      n ∉ keys dsLiteral ∧ n ∉ asyncMethods.map shortMethodKey) ∧
    keys dsWithShortMethods = keys dsLiteral ++ asyncMethods.map shortMethodKey ∧
    keys stubs = asyncMethods ++ syncMethods ∧
    (∀ k ∈ keys dsWithShortMethods, getProp dsObject k = getProp dsWithShortMethods k) ∧
    (∀ n ∈ asyncMethods, getProp dsObject n = some (Member.asyncStub n)) ∧
    (∀ n ∈ syncMethods, getProp dsObject n = some (Member.syncStub n)) ∧
    keys dsObject = keys dsWithShortMethods ++ (asyncMethods ++ syncMethods) := by
  decide

/-! ## Termination of the counted loop, and the hook -/

namespace DS

variable {τ : Type}

theorem flushWhile_eq (rs : List τ) (c : Int) (s : DSState τ) (fuel : Nat)
    (h : s.responses = rs) (hf : rs.length < fuel) :
    flushWhile fuel c s = some (flushCount rs c s) := by
  induction rs generalizing s c fuel with
  | nil =>
    cases fuel with
    | zero => simp at hf
    | succ n =>
      by_cases hc : c = 0
      · simp [flushWhile, flushCount, hc]
      · simp [flushWhile, flushCount, hc, h]
  | cons t rest ih =>
    cases fuel with
    | zero => simp at hf
    | succ n =>
      have hn : rest.length < n := by simpa using hf
      by_cases hc : c = 0
      · simp [flushWhile, flushCount, hc]
      · simp only [flushWhile, flushCount, if_neg hc, h]
        exact ih (c - 1) (shiftAndCall t rest s) n rfl hn

theorem digestCount_flushCount (rs : List τ) (c : Int) (s : DSState τ) :
    digestCount (flushCount rs c s).state.log = digestCount s.log := by
  induction rs generalizing s c with
  | nil =>
    by_cases hc : c = 0 <;> simp [flushCount, hc]
  | cons t rest ih =>
    by_cases hc : c = 0
    · simp [flushCount, hc]
    · simp only [flushCount, if_neg hc]
      rw [ih (c - 1) (shiftAndCall t rest s)]
      simp [shiftAndCall, digestCount_append, digestCount]

theorem digestCount_flushAll (rs : List τ) (s : DSState τ) :
    digestCount (flushAll rs s).log = digestCount s.log := by
  induction rs generalizing s with
  | nil => rfl
  | cons t rest ih =>
    rw [flushAll, ih (shiftAndCall t rest s)]
    simp [shiftAndCall, digestCount_append, digestCount]

theorem digestCount_digest (s : DSState τ) :
    digestCount (digest s).log = digestCount s.log + 1 := by
  simp [digest, digestCount_append, digestCount]

end DS

/-- C18: the counted loop of `flush` ends for every integer `count`, negative ones
included: run statement by statement on a queue of `n` thunks it stops within `n + 1`
evaluations of its condition, with the outcome that `flushCount` computes.  For a
negative `count` on a non-empty queue `[t1, ..., tn]`, `flush(count)` does not succeed: it
calls `t1, ..., tn` in order, leaves the queue empty and throws
'No more pending DS requests to flush !'. -/
theorem flush_terminates_negative_fails {τ : Type} (s : DSState τ) (count : Int) :
    (∀ fuel : Nat, s.responses.length < fuel →
      DS.flushWhile fuel count s = some (DS.flushCount s.responses count s)) ∧
    (count < 0 → s.responses ≠ [] →
      DS.flushWhile (s.responses.length + 1) count s
        = some { state := { s with responses := [],
                                   log := s.log ++ s.responses.map Event.invoked },
                 result := Except.error "No more pending DS requests to flush !" } ∧
      DS.flush (some count) s
        = { state := { s with responses := [],
                              log := s.log ++ s.responses.map Event.invoked },
            result := Except.error "No more pending DS requests to flush !" }) := by
  refine ⟨fun fuel hf => DS.flushWhile_eq s.responses count s fuel rfl hf, ?_⟩
  intro hneg hne
  have hlen : s.responses.length ≠ 0 := by
    intro hz
    exact hne (List.length_eq_zero.mp hz)
  have hshort := DS.flushCount_short s.responses count s rfl (Or.inl hneg)
  constructor
  · rw [DS.flushWhile_eq s.responses count s _ rfl (Nat.lt_succ_self _), hshort]
  · simp only [DS.flush, if_neg hlen, hshort]

/-- C18, at the queue `A, B, C` and `count = -1`. -/
theorem flush_terminates_negative_fails_witness :
    ((-1 : Int) < 0) ∧ pending3.responses ≠ [] ∧
    DS.flushWhile 4 (-1) pending3
      = some { state := { pending3 with
                            responses := [],
                            log := [Event.invoked "A", Event.invoked "B",
                                    Event.invoked "C"] },
               result := Except.error "No more pending DS requests to flush !" } ∧
    DS.flush (some (-1)) pending3
      = { state := { pending3 with
                       responses := [],
                       log := [Event.invoked "A", Event.invoked "B", Event.invoked "C"] },
          result := Except.error "No more pending DS requests to flush !" } :=
  ⟨by decide, List.cons_ne_nil _ _,
   ((flush_terminates_negative_fails pending3 (-1)).2 (by decide) (List.cons_ne_nil _ _)).1,
   ((flush_terminates_negative_fails pending3 (-1)).2 (by decide) (List.cons_ne_nil _ _)).2⟩

/-- C19: `flush` triggers the synchronization hook only when it succeeds.  A call of
`flush` that throws (empty queue at the call, or the queue running out before `count`
thunks were called) has triggered the hook zero times, and a call that returns has
triggered it once; `verifyNoOutstandingExpectation` triggers it once in every call,
whether it passes or throws. -/
theorem hook_only_on_successful_flush {τ : Type} (toStr : MockDSExpectation → String)
    (s : DSState τ) (count : Option Int) :
    (∀ msg : String, (DS.flush count s).result = Except.error msg →
      digestCount (DS.flush count s).state.log = digestCount s.log) ∧
    ((DS.flush count s).result = Except.ok () →
      digestCount (DS.flush count s).state.log = digestCount s.log + 1) ∧
    digestCount (DS.verifyNoOutstandingExpectation toStr s).state.log
      = digestCount s.log + 1 := by
  have hverify : digestCount (DS.verifyNoOutstandingExpectation toStr s).state.log
      = digestCount s.log + 1 := by
    unfold DS.verifyNoOutstandingExpectation
    simp only []
    split <;> exact DS.digestCount_digest s
  refine ⟨?_, ?_, hverify⟩
  · intro msg
    unfold DS.flush
    split
    · intro _; rfl
    · cases count with
      | none => intro h; cases h
      | some c =>
        simp only []
        split
        · intro h; cases h
        · intro _; exact DS.digestCount_flushCount s.responses c s
  · unfold DS.flush
    split
    · intro h; cases h
    · cases count with
      | none =>
        intro _
        simp only []
        rw [DS.digestCount_digest, DS.digestCount_flushAll]
      | some c =>
        simp only []
        split
        · intro _
          simp only []
          rw [DS.digestCount_digest, DS.digestCount_flushCount]
        · intro h; cases h

/-- C19, at the queue `A, B, C`: `flush(4)` throws without a trigger, `flush()` on an
empty queue throws without a trigger, `flush(2)` returns after one trigger, and a failing
`verifyNoOutstandingExpectation()` has one trigger. -/
theorem hook_only_on_successful_flush_witness :
    (DS.flush (some 4) pending3).result
      = Except.error "No more pending DS requests to flush !" ∧
    digestCount (DS.flush (some 4) pending3).state.log = digestCount pending3.log ∧
    (DS.flush none (DSState.fresh String)).result
      = Except.error "No pending DS requests to flush !" ∧
    digestCount (DS.flush none (DSState.fresh String)).state.log
      = digestCount (DSState.fresh String).log ∧
    (DS.flush (some 2) pending3).result = Except.ok () ∧
    digestCount (DS.flush (some 2) pending3).state.log = digestCount pending3.log + 1 ∧
    (DS.verifyNoOutstandingExpectation sampleToStr pending3).result
      = Except.error "Unsatisfied requests: destroy" ∧
    digestCount (DS.verifyNoOutstandingExpectation sampleToStr pending3).state.log
      = digestCount pending3.log + 1 :=
  ⟨rfl,
   (hook_only_on_successful_flush sampleToStr pending3 (some 4)).1 _ rfl,
   rfl,
   (hook_only_on_successful_flush sampleToStr (DSState.fresh String) none).1 _ rfl,
   rfl,
   (hook_only_on_successful_flush sampleToStr pending3 (some 2)).2.1 rfl,
   congrArg Except.error (by decide),
   (hook_only_on_successful_flush sampleToStr pending3 (some 2)).2.2⟩

/-! ## The dispatcher and the defaults -/

theorem find_first_match {α : Type} (p : α → Bool) (pre post : List α) (e : α)
    (hpre : ∀ x ∈ pre, p x = false) (he : p e = true) :
    (pre ++ e :: post).find? p = some e ∧ (pre ++ e :: post).eraseP p = pre ++ post := by
  induction pre with
  | nil => simp [List.find?_cons, List.eraseP_cons, he]
  | cons a rest ih =>
    have ha : p a = false := hpre a (List.mem_cons_self a rest)
    have hrest := ih (fun x hx => hpre x (List.mem_cons_of_mem a hx))
    simp [List.find?_cons, List.eraseP_cons, ha, hrest.1, hrest.2]

theorem flush_frame {τ : Type} (count : Option Int) (s : DSState τ) :
    (DS.flush count s).state.expectations = s.expectations ∧
    (DS.flush count s).state.definitions = s.definitions ∧
    (DS.flush count s).state.nextRef = s.nextRef := by
  by_cases hne : s.responses = []
  · simp [DS.flush, hne]
  · cases count with
    | none => rw [DS.flush_none_eq s hne]; exact ⟨rfl, rfl, rfl⟩
    | some c =>
      have hlen : s.responses.length ≠ 0 := fun hz => hne (List.length_eq_zero.mp hz)
      by_cases hin : 0 ≤ c ∧ c ≤ (s.responses.length : Int)
      · rw [DS.flush_some_eq s c hne hin.1 hin.2]; exact ⟨rfl, rfl, rfl⟩
      · have hout : c < 0 ∨ (s.responses.length : Int) < c := by omega
        simp only [DS.flush, if_neg hlen, DS.flushCount_short s.responses c s rfl hout]
        exact ⟨trivial, trivial, trivial⟩

theorem wellFormed_flush {τ : Type} (count : Option Int) (s : DSState τ)
    (h : DS.WellFormed s) : DS.WellFormed (DS.flush count s).state := by
  obtain ⟨he, hd, hn⟩ := flush_frame count s
  unfold DS.WellFormed DS.refs
  rw [he, hd, hn]
  exact h

theorem wellFormed_verify {τ : Type} (toStr : MockDSExpectation → String) (s : DSState τ)
    (h : DS.WellFormed s) :
    DS.WellFormed (DS.verifyNoOutstandingExpectation toStr s).state := by
  unfold DS.verifyNoOutstandingExpectation
  simp only []
  split <;> exact h

theorem wellFormed_mockAsync (isMatch : MockDSExpectation → String → List JSValue → Bool)
    (name : String) (actual : List JSValue) (s : DSState ResponseThunk)
    (h : DS.WellFormed s) : DS.WellFormed (mockAsync isMatch name actual s) := by
  have hsub : (DS.refs (mockAsync isMatch name actual s)).Sublist (DS.refs s) := by
    unfold mockAsync
    split
    · simp only [DS.refs]
      exact ((List.eraseP_sublist _).append_right _).map _
    · split <;> exact List.Sublist.refl _
  have hnext : (mockAsync isMatch name actual s).nextRef = s.nextRef := by
    unfold mockAsync
    split
    · rfl
    · split <;> rfl
  exact ⟨h.1.sublist hsub, fun n hn => hnext ▸ h.2 n (hsub.subset hn)⟩

/-- C15: expectations take priority over definitions.  When an invocation of a mocked
asynchronous operation is matched by a queued expectation (`e` is the first one that
matches: no record before it does) and also by a definition `d`, the dispatcher removes
`e`, and only `e`, from the expectation queue, leaves `definitions` as it is and appends
a thunk carrying the response of `e`; a following `flush()` calls that thunk, after the
thunks that were already pending. -/
theorem expectation_has_priority
    (isMatch : MockDSExpectation → String → List JSValue → Bool) (name : String)
    (actual : List JSValue) (s : DSState ResponseThunk)
    (pre post : List MockDSExpectation) (e d : MockDSExpectation)
    (hq : s.expectations = pre ++ e :: post)
    (hpre : ∀ x ∈ pre, isMatch x name actual = false)
    (he : isMatch e name actual = true)
    (_hd : d ∈ s.definitions) (_hdm : isMatch d name actual = true) :
    mockAsync isMatch name actual s
      = { s with
            expectations := pre ++ post,
            responses := s.responses ++
              [{ operationName := name, actualArguments := actual,
                 response := e.response }] } ∧
    (mockAsync isMatch name actual s).definitions = s.definitions ∧
    DS.flush none (mockAsync isMatch name actual s)
      = { state :=
            { s with
                expectations := pre ++ post,
                responses := [],
                log := s.log ++
                  (s.responses.map Event.invoked ++
                    [Event.invoked { operationName := name, actualArguments := actual,
                                     response := e.response },
                     Event.digest]) },
          result := Except.ok () } := by
  have hsplit := find_first_match (fun x => isMatch x name actual) pre post e hpre he
  have hmock : mockAsync isMatch name actual s
      = { s with
            expectations := pre ++ post,
            responses := s.responses ++
              [{ operationName := name, actualArguments := actual,
                 response := e.response }] } := by
    simp only [mockAsync, hq, hsplit.1, hsplit.2]
  refine ⟨hmock, by rw [hmock], ?_⟩
  rw [hmock, DS.flush_none_eq _ (by simp)]
  simp

/-- C15, at `find('post', 1)` on a service whose second and third expectations and whose
definition all match: the second expectation (answering `7`) is consumed. -/
theorem expectation_has_priority_witness :
    mockAsync sampleMatch "find" [JSValue.str "post", JSValue.num 1] priorityState
      = { priorityState with
            expectations :=
              [{ ref := 0, name := JSValue.str "destroy",
                 args := [JSValue.str "post", JSValue.num 1], response := none },
               { ref := 2, name := JSValue.str "find",
                 args := [JSValue.str "post", JSValue.num 1],
                 response := some [JSValue.num 8] }],
            responses :=
              [{ operationName := "find",
                 actualArguments := [JSValue.str "post", JSValue.num 1],
                 response := some [JSValue.num 7] }] } ∧
    (mockAsync sampleMatch "find" [JSValue.str "post", JSValue.num 1]
        priorityState).definitions = priorityState.definitions :=
  ⟨(expectation_has_priority sampleMatch "find" [JSValue.str "post", JSValue.num 1]
      priorityState
      [{ ref := 0, name := JSValue.str "destroy",
         args := [JSValue.str "post", JSValue.num 1], response := none }]
      [{ ref := 2, name := JSValue.str "find",
         args := [JSValue.str "post", JSValue.num 1], response := some [JSValue.num 8] }]
      { ref := 1, name := JSValue.str "find",
        args := [JSValue.str "post", JSValue.num 1], response := some [JSValue.num 7] }
      { ref := 3, name := JSValue.str "find",
        args := [JSValue.str "post", JSValue.num 1], response := some [JSValue.num 9] }
      rfl (by decide) (by decide) (List.mem_singleton.mpr rfl) (by decide)).1,
   (expectation_has_priority sampleMatch "find" [JSValue.str "post", JSValue.num 1]
      priorityState
      [{ ref := 0, name := JSValue.str "destroy",
         args := [JSValue.str "post", JSValue.num 1], response := none }]
      [{ ref := 2, name := JSValue.str "find",
         args := [JSValue.str "post", JSValue.num 1], response := some [JSValue.num 8] }]
      { ref := 1, name := JSValue.str "find",
        args := [JSValue.str "post", JSValue.num 1], response := some [JSValue.num 7] }
      { ref := 3, name := JSValue.str "find",
        args := [JSValue.str "post", JSValue.num 1], response := some [JSValue.num 9] }
      rfl (by decide) (by decide) (List.mem_singleton.mpr rfl) (by decide)).2.1⟩

/-- C20: `defaults.deserialize(resourceName, data)` does not depend on `resourceName`.
For every non-null `data`, that is `data != null`: neither `null` nor `undefined`, on
both of which the read `data.data` throws a TypeError, it returns `data.data` when that value is truthy and `data` itself otherwise; so an object
whose `data` field is present but falsy (`0`, `''`, `false`, `null`) is returned whole,
like an object without a `data` field and like a value that is not an object. -/
theorem deserialize_unwraps_truthy_data (r1 r2 data : JSValue)
    (hnull : data ≠ JSValue.null) (hundef : data ≠ JSValue.undefined) :
    defaults.deserialize r1 data = defaults.deserialize r2 data ∧
    (∃ d, data.dataField = Except.ok d ∧
      defaults.deserialize r1 data = Except.ok (if d.truthy = true then d else data)) ∧
    (∀ fields v, data = JSValue.obj fields → fields.lookup "data" = some v →
      v.truthy = true → defaults.deserialize r1 data = Except.ok v) ∧
    (∀ fields v, data = JSValue.obj fields → fields.lookup "data" = some v →
      v.truthy = false → defaults.deserialize r1 data = Except.ok data) ∧
    (∀ fields, data = JSValue.obj fields → fields.lookup "data" = none →
      defaults.deserialize r1 data = Except.ok data) ∧
    ((∀ fields, data ≠ JSValue.obj fields) →
      defaults.deserialize r1 data = Except.ok data) ∧
    (JSValue.num 0).truthy = false ∧ (JSValue.str "").truthy = false ∧
    (JSValue.bool false).truthy = false ∧ JSValue.null.truthy = false ∧
    JSValue.undefined.truthy = false ∧
    defaults.deserialize r1 JSValue.null
      = Except.error "TypeError: cannot read property data of null" ∧
    defaults.deserialize r1 JSValue.undefined
      = Except.error "TypeError: cannot read property data of undefined" := by
  refine ⟨rfl, ?_, ?_, ?_, ?_, ?_, rfl, rfl, rfl, rfl, rfl, rfl, rfl⟩
  · cases data with
    | undefined => exact absurd rfl hundef
    | null => exact absurd rfl hnull
    | obj fields =>
      refine ⟨(fields.lookup "data").getD JSValue.undefined, rfl, ?_⟩
      simp only [defaults.deserialize, JSValue.dataField]
      split <;> simp_all
    | bool b => exact ⟨JSValue.undefined, rfl, rfl⟩
    | num n => exact ⟨JSValue.undefined, rfl, rfl⟩
    | str t => exact ⟨JSValue.undefined, rfl, rfl⟩
    | arr items => exact ⟨JSValue.undefined, rfl, rfl⟩
  · intro fields v hdata hv ht
    subst hdata
    simp [defaults.deserialize, JSValue.dataField, hv, ht]
  · intro fields v hdata hv ht
    subst hdata
    simp [defaults.deserialize, JSValue.dataField, hv, ht]
  · intro fields hdata hv
    subst hdata
    simp [defaults.deserialize, JSValue.dataField, hv, JSValue.truthy]
  · intro hobj
    cases data with
    | undefined => exact absurd rfl hundef
    | null => exact absurd rfl hnull
    | obj fields => exact absurd rfl (hobj fields)
    | bool b => rfl
    | num n => rfl
    | str t => rfl
    | arr items => rfl

/-- C20, at the payloads `{data: 0, id: 1}` (returned whole) and `{data: {id: 1}}`
(unwrapped), with two different resource names. -/
theorem deserialize_unwraps_truthy_data_witness :
    JSValue.obj [("data", JSValue.num 0), ("id", JSValue.num 1)] ≠ JSValue.null ∧
    JSValue.obj [("data", JSValue.num 0), ("id", JSValue.num 1)] ≠ JSValue.undefined ∧
    defaults.deserialize (JSValue.str "post")
        (JSValue.obj [("data", JSValue.num 0), ("id", JSValue.num 1)])
      = Except.ok (JSValue.obj [("data", JSValue.num 0), ("id", JSValue.num 1)]) ∧
    defaults.deserialize (JSValue.str "post")
        (JSValue.obj [("data", JSValue.obj [("id", JSValue.num 1)])])
      = Except.ok (JSValue.obj [("id", JSValue.num 1)]) ∧
    defaults.deserialize (JSValue.str "post")
        (JSValue.obj [("data", JSValue.obj [("id", JSValue.num 1)])])
      = defaults.deserialize (JSValue.str "user")
          (JSValue.obj [("data", JSValue.obj [("id", JSValue.num 1)])]) :=
  ⟨fun h => JSValue.noConfusion h, fun h => JSValue.noConfusion h,
   (deserialize_unwraps_truthy_data (JSValue.str "post") (JSValue.str "user")
      (JSValue.obj [("data", JSValue.num 0), ("id", JSValue.num 1)])
      (fun h => JSValue.noConfusion h) (fun h => JSValue.noConfusion h)).2.2.2.1
      _ (JSValue.num 0) rfl rfl rfl,
   (deserialize_unwraps_truthy_data (JSValue.str "post") (JSValue.str "user")
      (JSValue.obj [("data", JSValue.obj [("id", JSValue.num 1)])])
      (fun h => JSValue.noConfusion h) (fun h => JSValue.noConfusion h)).2.2.1
      _ (JSValue.obj [("id", JSValue.num 1)]) rfl rfl rfl,
   (deserialize_unwraps_truthy_data (JSValue.str "post") (JSValue.str "user")
      (JSValue.obj [("data", JSValue.obj [("id", JSValue.num 1)])])
      (fun h => JSValue.noConfusion h) (fun h => JSValue.noConfusion h)).1⟩

end DSMock
